import Mathlib

/-!
Shallow embedding of the SitConnect local persistence layer.

The source keeps two SQLite tables,

  listings(id PK AUTOINCREMENT, creatorRoleId, sitterType, location,
           startDate, endDate, description, createdAt)
  saved_listings(id PK AUTOINCREMENT, listingId FK -> listings(id)
                 ON DELETE CASCADE, sitterRoleId, savedAt)

and a service layer of single-statement CRUD functions
(createListing, getAllListings, getListingsByCreator, getListingById,
filterListingsByType, updateListing, deleteListing, saveListingForSitter,
unsaveListingForSitter, isListingSaved, getSavedListingsForSitter) plus
initDatabase / seedSampleData.

The embedding models the database as a pure state `DB`: two row lists in
insertion (rowid) order together with the two AUTOINCREMENT counters.
`new Date().toISOString()` is modelled by an explicit `now : String`
argument.  `ORDER BY c DESC` on a text column is modelled by a stable
insertion sort under the relation `fun a b => b.c ≤ a.c` (SQLite BINARY
text collation corresponds to the total order on strings).  `getFirstAsync`
on an un-ordered SELECT is `List.find?` over rows in rowid order.  The
declared `ON DELETE CASCADE` of the schema is part of `deleteListing`.
-/

/-- The three-valued sitter-type enumeration from the types module
(stored as text `pet` / `house` / `both`; the application layer only ever
writes these enum values). -/
inductive SitterType where
  | PET
  | HOUSE
  | BOTH
deriving DecidableEq, Repr

/-- A row of the `listings` table / the `Listing` interface. -/
structure Listing where
  id : Nat
  creatorRoleId : Int
  sitterType : SitterType
  location : String
  startDate : String
  endDate : String
  description : String
  createdAt : String
deriving DecidableEq, Repr

/-- A row of the `saved_listings` table. -/
structure SavedListing where
  id : Nat
  listingId : Nat
  sitterRoleId : Int
  savedAt : String
deriving DecidableEq, Repr

/-- The database state: rows of both tables in rowid (insertion) order,
plus the AUTOINCREMENT counters for the two `id` columns. -/
structure DB where
  listings : List Listing
  savedListings : List SavedListing
  nextListingId : Nat
  nextSavedId : Nat
deriving DecidableEq, Repr

/-- The freshly created store: both tables exist and are empty, and
SQLite AUTOINCREMENT starts assigning ids at 1. -/
def emptyDB : DB :=
  { listings := [], savedListings := [], nextListingId := 1, nextSavedId := 1 }

/-- `ORDER BY createdAt DESC` over listing rows. -/
def sortByCreatedAtDesc (ls : List Listing) : List Listing :=
  List.insertionSort (fun a b => b.createdAt ≤ a.createdAt) ls

/-- `ORDER BY sl.savedAt DESC` over bookmark rows. -/
def sortBySavedAtDesc (ss : List SavedListing) : List SavedListing :=
  List.insertionSort (fun a b => b.savedAt ≤ a.savedAt) ss

/-- `INSERT INTO listings (creatorRoleId, sitterType, location, startDate,
endDate, description, createdAt) VALUES (?, ?, ?, ?, ?, ?, ?)`: the row gets
the next AUTOINCREMENT id and is appended in rowid order. -/
def insertListingRow (db : DB) (creatorRoleId : Int) (sitterType : SitterType)
    (location startDate endDate description createdAt : String) : DB :=
  { db with
    listings := db.listings ++
      [{ id := db.nextListingId, creatorRoleId := creatorRoleId,
         sitterType := sitterType, location := location,
         startDate := startDate, endDate := endDate,
         description := description, createdAt := createdAt }],
    nextListingId := db.nextListingId + 1 }

/-- `createListing`: inserts one row with `createdAt = new Date().toISOString()`
and returns `result.lastInsertRowId`. -/
def createListing (db : DB) (creatorRoleId : Int) (sitterType : SitterType)
    (location startDate endDate description now : String) : DB × Nat :=
  (insertListingRow db creatorRoleId sitterType location startDate endDate
    description now, db.nextListingId)

/-- `getAllListings`: `SELECT * FROM listings ORDER BY createdAt DESC`. -/
def getAllListings (db : DB) : List Listing :=
  sortByCreatedAtDesc db.listings

/-- `getListingsByCreator`:
`SELECT * FROM listings WHERE creatorRoleId = ? ORDER BY createdAt DESC`. -/
def getListingsByCreator (db : DB) (creatorRoleId : Int) : List Listing :=
  sortByCreatedAtDesc
    (db.listings.filter (fun l => decide (l.creatorRoleId = creatorRoleId)))

/-- `getListingById`: `getFirstAsync` of
`SELECT * FROM listings WHERE id = ?`, `null` when no row matches. -/
def getListingById (db : DB) (id : Nat) : Option Listing :=
  db.listings.find? (fun l => decide (l.id = id))

/-- The argument of `filterListingsByType`: a `SitterType` or the
string sentinel `all`. -/
inductive TypeFilter where
  | all : TypeFilter
  | only : SitterType → TypeFilter
deriving DecidableEq, Repr

/-- `filterListingsByType`: for the `all` sentinel it delegates to
`getAllListings`; otherwise it runs
`SELECT * FROM listings WHERE sitterType = ? OR sitterType = ?
ORDER BY createdAt DESC` with `[sitterType, SitterType.BOTH]` bound. -/
def filterListingsByType (db : DB) : TypeFilter → List Listing
  | TypeFilter.all => getAllListings db
  | TypeFilter.only t =>
      sortByCreatedAtDesc
        (db.listings.filter
          (fun l => decide (l.sitterType = t) || decide (l.sitterType = SitterType.BOTH)))

/-- The effect of the `UPDATE ... SET ... WHERE id = ?` statement on one
row: when the `id` matches, the five mutable columns are overwritten and
`id`, `creatorRoleId`, `createdAt` are kept; otherwise the row is
untouched. -/
def updOne (id : Nat) (sitterType : SitterType)
    (location startDate endDate description : String) (l : Listing) : Listing :=
  if l.id = id then
    { l with sitterType := sitterType, location := location,
             startDate := startDate, endDate := endDate,
             description := description }
  else l

/-- `updateListing`: `UPDATE listings SET sitterType = ?, location = ?,
startDate = ?, endDate = ?, description = ? WHERE id = ?` — every row whose
`id` matches gets the five mutable columns overwritten, all other rows and
the other table are untouched. -/
def updateListing (db : DB) (id : Nat) (sitterType : SitterType)
    (location startDate endDate description : String) : DB :=
  { db with
    listings := db.listings.map (updOne id sitterType location startDate
      endDate description) }

/-- `deleteListing`: `DELETE FROM listings WHERE id = ?`; the schema's
`ON DELETE CASCADE` removes every `saved_listings` row whose `listingId`
references the deleted row. -/
def deleteListing (db : DB) (id : Nat) : DB :=
  { db with
    listings := db.listings.filter (fun l => decide (l.id ≠ id)),
    savedListings := db.savedListings.filter (fun s => decide (s.listingId ≠ id)) }

/-- `saveListingForSitter`: first
`SELECT * FROM saved_listings WHERE listingId = ? AND sitterRoleId = ?`
(`getFirstAsync`); when a row exists the call returns without writing,
otherwise it inserts `(listingId, sitterRoleId, savedAt = now)`. -/
def saveListingForSitter (db : DB) (listingId : Nat) (sitterRoleId : Int)
    (now : String) : DB :=
  match db.savedListings.find?
      (fun s => decide (s.listingId = listingId) && decide (s.sitterRoleId = sitterRoleId)) with
  | some _ => db
  | none =>
      { db with
        savedListings := db.savedListings ++
          [{ id := db.nextSavedId, listingId := listingId,
             sitterRoleId := sitterRoleId, savedAt := now }],
        nextSavedId := db.nextSavedId + 1 }

/-- `unsaveListingForSitter`:
`DELETE FROM saved_listings WHERE listingId = ? AND sitterRoleId = ?`. -/
def unsaveListingForSitter (db : DB) (listingId : Nat) (sitterRoleId : Int) : DB :=
  { db with
    savedListings := db.savedListings.filter
      (fun s => !(decide (s.listingId = listingId) && decide (s.sitterRoleId = sitterRoleId))) }

/-- `isListingSaved`: existence check for the pair. -/
def isListingSaved (db : DB) (listingId : Nat) (sitterRoleId : Int) : Bool :=
  (db.savedListings.find?
    (fun s => decide (s.listingId = listingId) && decide (s.sitterRoleId = sitterRoleId))).isSome

/-- `getSavedListingsForSitter`:
`SELECT l.* FROM listings l INNER JOIN saved_listings sl ON l.id = sl.listingId
WHERE sl.sitterRoleId = ? ORDER BY sl.savedAt DESC` — the bookmark rows of the
sitter in `savedAt`-descending order, each replaced by the listing rows whose
`id` matches its `listingId`. -/
def getSavedListingsForSitter (db : DB) (sitterRoleId : Int) : List Listing :=
  (sortBySavedAtDesc
      (db.savedListings.filter (fun s => decide (s.sitterRoleId = sitterRoleId)))).flatMap
    (fun s => db.listings.filter (fun l => decide (l.id = s.listingId)))

/-- `seedSampleData`: inserts the five fixed sample listings, in source
order, each with `createdAt` the seeding time. -/
def seedSampleData (db : DB) (now : String) : DB :=
  let d1 := insertListingRow db 1 SitterType.PET "Cape Town, Western Cape"
    "2025-01-10" "2025-01-20"
    "Looking for a reliable pet sitter for my two cats while I travel. They are friendly and low-maintenance."
    now
  let d2 := insertListingRow d1 1 SitterType.HOUSE "Stellenbosch, Western Cape"
    "2025-02-01" "2025-02-14"
    "Need someone to house sit our home in Stellenbosch. Must water plants and collect mail."
    now
  let d3 := insertListingRow d2 1 SitterType.BOTH "Johannesburg, Gauteng"
    "2025-03-05" "2025-03-15"
    "Looking for someone to watch our house and take care of our dog. Dog needs daily walks."
    now
  let d4 := insertListingRow d3 1 SitterType.PET "Durban, KwaZulu-Natal"
    "2025-01-25" "2025-02-05"
    "Need a pet sitter for my golden retriever. Very friendly and energetic, loves playing fetch."
    now
  insertListingRow d4 1 SitterType.HOUSE "Pretoria, Gauteng"
    "2025-02-20" "2025-03-01"
    "House sitting needed for our apartment. Simple tasks include watering garden and maintaining security."
    now

/-- `initDatabase`: `CREATE TABLE IF NOT EXISTS` for both tables (a no-op
on the state model, where the schema always exists), then
`SELECT COUNT(*) as count FROM listings` and, exactly when the count is 0,
`seedSampleData`. -/
def initDatabase (db : DB) (now : String) : DB :=
  if db.listings.length = 0 then seedSampleData db now else db

/-- One call of the mutating service layer (the read-only operations do not
change the state). -/
inductive Op where
  | init (now : String)
  | create (creatorRoleId : Int) (sitterType : SitterType)
      (location startDate endDate description now : String)
  | update (id : Nat) (sitterType : SitterType)
      (location startDate endDate description : String)
  | delete (id : Nat)
  | save (listingId : Nat) (sitterRoleId : Int) (now : String)
  | unsave (listingId : Nat) (sitterRoleId : Int)

/-- Apply one service-layer mutation to the state. -/
def applyOp (db : DB) : Op → DB
  | Op.init now => initDatabase db now
  | Op.create c t loc sd ed desc now => (createListing db c t loc sd ed desc now).1
  | Op.update id t loc sd ed desc => updateListing db id t loc sd ed desc
  | Op.delete id => deleteListing db id
  | Op.save lid sid now => saveListingForSitter db lid sid now
  | Op.unsave lid sid => unsaveListingForSitter db lid sid

/-- A state mutated only through the defined access functions, starting
from the fresh store. -/
def Reachable (db : DB) : Prop :=
  ∃ ops : List Op, db = ops.foldl applyOp emptyDB

/-- At most one `saved_listings` row per (listingId, sitterRoleId) pair. -/
def savedPairUnique (db : DB) : Prop :=
  db.savedListings.Pairwise
    (fun a b => a.listingId ≠ b.listingId ∨ a.sitterRoleId ≠ b.sitterRoleId)

/-- Every stored listing id is strictly below the AUTOINCREMENT counter, so
the next insert gets a fresh id. -/
def listingIdsFresh (db : DB) : Prop :=
  ∀ l ∈ db.listings, l.id < db.nextListingId

/-! ### Sorting helper lemmas -/

instance : IsTotal Listing (fun a b => b.createdAt ≤ a.createdAt) :=
  ⟨fun _ _ => le_total _ _⟩

instance : IsTrans Listing (fun a b => b.createdAt ≤ a.createdAt) :=
  ⟨fun _ _ _ h1 h2 => h2.trans h1⟩

instance : IsTotal SavedListing (fun a b => b.savedAt ≤ a.savedAt) :=
  ⟨fun _ _ => le_total _ _⟩

instance : IsTrans SavedListing (fun a b => b.savedAt ≤ a.savedAt) :=
  ⟨fun _ _ _ h1 h2 => h2.trans h1⟩

theorem perm_sortByCreatedAtDesc (ls : List Listing) :
    (sortByCreatedAtDesc ls).Perm ls :=
  List.perm_insertionSort _ ls

theorem mem_sortByCreatedAtDesc {ls : List Listing} {l : Listing} :
    l ∈ sortByCreatedAtDesc ls ↔ l ∈ ls :=
  (perm_sortByCreatedAtDesc ls).mem_iff

theorem sorted_sortByCreatedAtDesc (ls : List Listing) :
    (sortByCreatedAtDesc ls).Sorted (fun a b => b.createdAt ≤ a.createdAt) :=
  List.sorted_insertionSort _ ls

theorem perm_sortBySavedAtDesc (ss : List SavedListing) :
    (sortBySavedAtDesc ss).Perm ss :=
  List.perm_insertionSort _ ss

theorem sorted_sortBySavedAtDesc (ss : List SavedListing) :
    (sortBySavedAtDesc ss).Sorted (fun a b => b.savedAt ≤ a.savedAt) :=
  List.sorted_insertionSort _ ss

/-! ### Small characterisation lemmas -/

theorem mem_deleteListing_listings {db : DB} {id : Nat} {l : Listing} :
    l ∈ (deleteListing db id).listings ↔ l ∈ db.listings ∧ l.id ≠ id := by
  simp [deleteListing]

theorem mem_getAllListings {db : DB} {l : Listing} :
    l ∈ getAllListings db ↔ l ∈ db.listings := by
  simp [getAllListings, mem_sortByCreatedAtDesc]

/-- Claim C1: `deleteListing id` removes the listing row matching `id` and
every `saved_listings` row whose `listingId` references it; afterwards the
listing is absent from `getAllListings` and from
`getSavedListingsForSitter` for every sitter. -/
theorem deleteListing_cascades (db : DB) (id : Nat) :
    (∀ l ∈ (deleteListing db id).listings, l.id ≠ id)
    ∧ ((deleteListing db id).savedListings
        = db.savedListings.filter (fun s => decide (s.listingId ≠ id)))
    ∧ (∀ l ∈ getAllListings (deleteListing db id), l.id ≠ id)
    ∧ (∀ sitterRoleId : Int,
        ∀ l ∈ getSavedListingsForSitter (deleteListing db id) sitterRoleId,
          l.id ≠ id) := by
  refine ⟨fun l hl => (mem_deleteListing_listings.mp hl).2, rfl,
    fun l hl => (mem_deleteListing_listings.mp (mem_getAllListings.mp hl)).2,
    fun sid l hl => ?_⟩
  rcases List.mem_flatMap.mp hl with ⟨s, _, hls⟩
  exact (mem_deleteListing_listings.mp (List.mem_filter.mp hls).1).2

/-- Claim C2: filtering by a sitter type returns exactly the listings whose
type is that type or BOTH (so BOTH alone for the BOTH filter), the `all`
sentinel coincides with `getAllListings`, and every result is ordered by
`createdAt` descending. -/
theorem filterListingsByType_spec (db : DB) (t : SitterType) (l : Listing) :
    (l ∈ filterListingsByType db (TypeFilter.only t)
        ↔ l ∈ db.listings ∧ (l.sitterType = t ∨ l.sitterType = SitterType.BOTH))
    ∧ (l ∈ filterListingsByType db (TypeFilter.only SitterType.BOTH)
        ↔ l ∈ db.listings ∧ l.sitterType = SitterType.BOTH)
    ∧ filterListingsByType db TypeFilter.all = getAllListings db
    ∧ (filterListingsByType db (TypeFilter.only t)).Perm
        (db.listings.filter
          (fun l => decide (l.sitterType = t) || decide (l.sitterType = SitterType.BOTH)))
    ∧ (filterListingsByType db (TypeFilter.only t)).Sorted
        (fun a b => b.createdAt ≤ a.createdAt)
    ∧ (filterListingsByType db TypeFilter.all).Sorted
        (fun a b => b.createdAt ≤ a.createdAt) := by
  refine ⟨?_, ?_, rfl, perm_sortByCreatedAtDesc _,
    sorted_sortByCreatedAtDesc _, sorted_sortByCreatedAtDesc _⟩
  · simp [filterListingsByType, mem_sortByCreatedAtDesc, List.mem_filter]
  · simp [filterListingsByType, mem_sortByCreatedAtDesc, List.mem_filter]

/-- Claim C8: `getListingsByCreator` returns exactly the listings whose
`creatorRoleId` equals the argument, ordered by `createdAt` descending. -/
theorem getListingsByCreator_spec (db : DB) (c : Int) :
    ((getListingsByCreator db c).Perm
        (db.listings.filter (fun l => decide (l.creatorRoleId = c))))
    ∧ (∀ l, l ∈ getListingsByCreator db c ↔ l ∈ db.listings ∧ l.creatorRoleId = c)
    ∧ (getListingsByCreator db c).Sorted (fun a b => b.createdAt ≤ a.createdAt) := by
  refine ⟨perm_sortByCreatedAtDesc _, ?_, sorted_sortByCreatedAtDesc _⟩
  intro l
  simp [getListingsByCreator, mem_sortByCreatedAtDesc, List.mem_filter]

/-- Claim C9: `getSavedListingsForSitter` is the join of the sitter's
bookmark rows (a permutation of the `sitterRoleId`-filtered
`saved_listings`, in `savedAt`-descending order) with the full listing
records matching their `listingId`; a listing is in the result exactly when
some bookmark of that sitter references it. -/
theorem getSavedListingsForSitter_spec (db : DB) (sid : Int) :
    (∃ sls : List SavedListing,
        sls.Perm (db.savedListings.filter (fun s => decide (s.sitterRoleId = sid)))
        ∧ sls.Sorted (fun a b => b.savedAt ≤ a.savedAt)
        ∧ getSavedListingsForSitter db sid
            = sls.flatMap (fun s => db.listings.filter (fun l => decide (l.id = s.listingId))))
    ∧ (∀ l, l ∈ getSavedListingsForSitter db sid
        ↔ ∃ s ∈ db.savedListings,
            s.sitterRoleId = sid ∧ l ∈ db.listings ∧ l.id = s.listingId) := by
  constructor
  · exact ⟨sortBySavedAtDesc
      (db.savedListings.filter (fun s => decide (s.sitterRoleId = sid))),
      perm_sortBySavedAtDesc _, sorted_sortBySavedAtDesc _, rfl⟩
  · intro l
    constructor
    · intro hl
      rcases List.mem_flatMap.mp hl with ⟨s, hs, hls⟩
      have hs2 := (perm_sortBySavedAtDesc _).mem_iff.mp hs
      rcases List.mem_filter.mp hs2 with ⟨hsmem, hsid⟩
      rcases List.mem_filter.mp hls with ⟨hlmem, hlid⟩
      exact ⟨s, hsmem, of_decide_eq_true hsid, hlmem, of_decide_eq_true hlid⟩
    · rintro ⟨s, hsmem, hsid, hlmem, hlid⟩
      refine List.mem_flatMap.mpr ⟨s, ?_, ?_⟩
      · exact (perm_sortBySavedAtDesc _).mem_iff.mpr
          (List.mem_filter.mpr ⟨hsmem, by simp [hsid]⟩)
      · exact List.mem_filter.mpr ⟨hlmem, by simp [hlid]⟩

/-! ### Initialization -/

theorem seedSampleData_listings_length (db : DB) (now : String) :
    (seedSampleData db now).listings.length = db.listings.length + 5 := by
  simp [seedSampleData, insertListingRow]

theorem seedSampleData_savedListings (db : DB) (now : String) :
    (seedSampleData db now).savedListings = db.savedListings := by
  simp [seedSampleData, insertListingRow]

/-- Claim C3: `initDatabase` is idempotent — a second call in sequence
returns the state unchanged — and seeding happens exactly when the listing
count is zero, so the seed count stays at 5 after the second call. -/
theorem initDatabase_idempotent (db : DB) (now now2 : String) :
    initDatabase (initDatabase db now) now2 = initDatabase db now
    ∧ (db.listings.length = 0 → initDatabase db now = seedSampleData db now)
    ∧ (db.listings.length ≠ 0 → initDatabase db now = db)
    ∧ (initDatabase emptyDB now).listings.length = 5
    ∧ (initDatabase (initDatabase emptyDB now) now2).listings.length = 5 := by
  have hzero : ∀ d : DB, ∀ n : String, d.listings.length = 0 →
      initDatabase d n = seedSampleData d n := by
    intro d n h
    simp [initDatabase, h]
  have hpos : ∀ d : DB, ∀ n : String, d.listings.length ≠ 0 →
      initDatabase d n = d := by
    intro d n h
    simp [initDatabase, h]
  have hidem : ∀ d : DB, initDatabase (initDatabase d now) now2 = initDatabase d now := by
    intro d
    by_cases h : d.listings.length = 0
    · have h1 := hzero d now h
      have h2 : (initDatabase d now).listings.length ≠ 0 := by
        rw [h1, seedSampleData_listings_length]
        omega
      exact hpos _ now2 h2
    · rw [hpos d now h]
      exact hpos d now2 h
  have e1 : (initDatabase emptyDB now).listings.length = 5 := by
    rw [hzero emptyDB now rfl, seedSampleData_listings_length]
    simp [emptyDB]
  have e2 : (initDatabase (initDatabase emptyDB now) now2).listings.length = 5 := by
    rw [hidem emptyDB]
    exact e1
  exact ⟨hidem db, hzero db now, hpos db now, e1, e2⟩

/-- Witness for C3 at a concrete state. -/
theorem initDatabase_idempotent_witness :
    initDatabase (initDatabase emptyDB "T1") "T2" = initDatabase emptyDB "T1" :=
  (initDatabase_idempotent emptyDB "T1" "T2").1

/-! ### Update -/

/-- Claim C6: `updateListing` only overwrites the five mutable columns of
rows whose `id` matches: every row keeps its position, `id`,
`creatorRoleId` and `createdAt`; a row with a different `id` is unchanged;
the matching row receives exactly the new mutable values; the bookmark
table and the id counter are untouched. -/
theorem updateListing_frame (db : DB) (id : Nat) (t : SitterType)
    (loc sd ed desc : String) (i : Nat) (hi : i < db.listings.length)
    (hi2 : i < (updateListing db id t loc sd ed desc).listings.length) :
    (updateListing db id t loc sd ed desc).savedListings = db.savedListings
    ∧ (updateListing db id t loc sd ed desc).nextListingId = db.nextListingId
    ∧ (updateListing db id t loc sd ed desc).listings.length = db.listings.length
    ∧ ((updateListing db id t loc sd ed desc).listings.get ⟨i, hi2⟩).id
        = (db.listings.get ⟨i, hi⟩).id
    ∧ ((updateListing db id t loc sd ed desc).listings.get ⟨i, hi2⟩).creatorRoleId
        = (db.listings.get ⟨i, hi⟩).creatorRoleId
    ∧ ((updateListing db id t loc sd ed desc).listings.get ⟨i, hi2⟩).createdAt
        = (db.listings.get ⟨i, hi⟩).createdAt
    ∧ ((db.listings.get ⟨i, hi⟩).id ≠ id →
        (updateListing db id t loc sd ed desc).listings.get ⟨i, hi2⟩
          = db.listings.get ⟨i, hi⟩)
    ∧ ((db.listings.get ⟨i, hi⟩).id = id →
        ((updateListing db id t loc sd ed desc).listings.get ⟨i, hi2⟩).sitterType = t
        ∧ ((updateListing db id t loc sd ed desc).listings.get ⟨i, hi2⟩).location = loc
        ∧ ((updateListing db id t loc sd ed desc).listings.get ⟨i, hi2⟩).startDate = sd
        ∧ ((updateListing db id t loc sd ed desc).listings.get ⟨i, hi2⟩).endDate = ed
        ∧ ((updateListing db id t loc sd ed desc).listings.get ⟨i, hi2⟩).description = desc) := by
  have key : (updateListing db id t loc sd ed desc).listings.get ⟨i, hi2⟩
      = updOne id t loc sd ed desc (db.listings.get ⟨i, hi⟩) := by
    simp [updateListing, List.get_eq_getElem, List.getElem_map]
  rw [key]
  by_cases h : (db.listings.get ⟨i, hi⟩).id = id
  · unfold updOne
    rw [if_pos h]
    exact ⟨rfl, rfl, by simp [updateListing], rfl, rfl, rfl,
      fun hne => absurd h hne, fun _ => ⟨rfl, rfl, rfl, rfl, rfl⟩⟩
  · unfold updOne
    rw [if_neg h]
    exact ⟨rfl, rfl, by simp [updateListing], rfl, rfl, rfl,
      fun _ => rfl, fun heq => absurd heq h⟩

/-- A one-row concrete state used by witnesses. -/
def rowA : Listing :=
  { id := 1, creatorRoleId := 1, sitterType := SitterType.PET,
    location := "CT", startDate := "2025-01-01", endDate := "2025-01-02",
    description := "cats", createdAt := "2025-01-01T00:00:00.000Z" }

/-- A concrete state with one listing row, used by witnesses. -/
def dbA : DB :=
  { listings := [rowA], savedListings := [], nextListingId := 2, nextSavedId := 1 }

/-- Witness for C6 at a concrete state. -/
theorem updateListing_frame_witness :
    (updateListing dbA 1 SitterType.HOUSE "JHB" "2025-02-01" "2025-02-02" "dogs").savedListings
      = dbA.savedListings :=
  (updateListing_frame dbA 1 SitterType.HOUSE "JHB" "2025-02-01" "2025-02-02" "dogs"
    0 (by decide) (by decide)).1

/-- Claim C7: `updateListing` on an id absent from the listing table leaves
the entire store state unchanged (and signals nothing). -/
theorem updateListing_absent_id (db : DB) (id : Nat) (t : SitterType)
    (loc sd ed desc : String) (h : ∀ l ∈ db.listings, l.id ≠ id) :
    updateListing db id t loc sd ed desc = db := by
  have hmap : ∀ ls : List Listing, (∀ l ∈ ls, l.id ≠ id) →
      ls.map (updOne id t loc sd ed desc) = ls := by
    intro ls hls
    induction ls with
    | nil => rfl
    | cons a as ih =>
        simp [updOne, hls a (List.mem_cons_self a as),
          ih (fun l hl => hls l (List.mem_cons_of_mem a hl))]
  simp [updateListing, hmap db.listings h]

/-- Witness for C7 at a concrete state: updating the absent id 2. -/
theorem updateListing_absent_id_witness :
    updateListing dbA 2 SitterType.HOUSE "JHB" "2025-02-01" "2025-02-02" "dogs" = dbA :=
  updateListing_absent_id dbA 2 SitterType.HOUSE "JHB" "2025-02-01" "2025-02-02" "dogs"
    (by decide)

/-! ### Invariants preserved by the mutating operations -/

/-- The two data-layer invariants together: listing ids are below the
AUTOINCREMENT counter, and bookmark pairs are unique. -/
def DBInv (db : DB) : Prop := listingIdsFresh db ∧ savedPairUnique db

theorem inv_emptyDB : DBInv emptyDB := by
  constructor
  · intro l hl
    simp [emptyDB] at hl
  · simp [savedPairUnique, emptyDB]

theorem inv_insertListingRow {db : DB} (h : DBInv db) (c : Int) (t : SitterType)
    (loc sd ed desc ts : String) : DBInv (insertListingRow db c t loc sd ed desc ts) := by
  obtain ⟨hf, hp⟩ := h
  constructor
  · intro l hl
    simp only [insertListingRow, List.mem_append, List.mem_singleton] at hl
    rcases hl with hl | hl
    · exact (hf l hl).trans (Nat.lt_succ_self _)
    · subst hl
      exact Nat.lt_succ_self _
  · exact hp

theorem inv_seedSampleData {db : DB} (h : DBInv db) (now : String) :
    DBInv (seedSampleData db now) := by
  unfold seedSampleData
  exact inv_insertListingRow (inv_insertListingRow (inv_insertListingRow
    (inv_insertListingRow (inv_insertListingRow h _ _ _ _ _ _ _) _ _ _ _ _ _ _)
    _ _ _ _ _ _ _) _ _ _ _ _ _ _) _ _ _ _ _ _ _

theorem inv_initDatabase {db : DB} (h : DBInv db) (now : String) :
    DBInv (initDatabase db now) := by
  unfold initDatabase
  by_cases hc : db.listings.length = 0
  · rw [if_pos hc]
    exact inv_seedSampleData h now
  · rw [if_neg hc]
    exact h

theorem updOne_id (id : Nat) (t : SitterType) (loc sd ed desc : String)
    (l : Listing) : (updOne id t loc sd ed desc l).id = l.id := by
  unfold updOne
  split <;> rfl

theorem inv_updateListing {db : DB} (h : DBInv db) (id : Nat) (t : SitterType)
    (loc sd ed desc : String) : DBInv (updateListing db id t loc sd ed desc) := by
  obtain ⟨hf, hp⟩ := h
  constructor
  · intro l hl
    simp only [updateListing, List.mem_map] at hl
    rcases hl with ⟨l0, hl0, rfl⟩
    rw [updOne_id]
    exact hf l0 hl0
  · exact hp

theorem inv_deleteListing {db : DB} (h : DBInv db) (id : Nat) :
    DBInv (deleteListing db id) := by
  obtain ⟨hf, hp⟩ := h
  constructor
  · intro l hl
    exact hf l (List.mem_filter.mp hl).1
  · exact hp.sublist (List.filter_sublist _)

theorem inv_saveListingForSitter {db : DB} (h : DBInv db) (lid : Nat) (sid : Int)
    (now : String) : DBInv (saveListingForSitter db lid sid now) := by
  obtain ⟨hf, hp⟩ := h
  unfold saveListingForSitter
  cases hfind : db.savedListings.find?
      (fun s => decide (s.listingId = lid) && decide (s.sitterRoleId = sid)) with
  | some s => exact ⟨hf, hp⟩
  | none =>
      refine ⟨hf, ?_⟩
      have hnone := List.find?_eq_none.mp hfind
      unfold savedPairUnique
      rw [List.pairwise_append]
      refine ⟨hp, List.pairwise_singleton _ _, ?_⟩
      intro a ha b hb
      simp only [List.mem_singleton] at hb
      subst hb
      have := hnone a ha
      simp only [Bool.and_eq_true, decide_eq_true_eq, not_and] at this
      by_cases h1 : a.listingId = lid
      · exact Or.inr (by simpa [h1] using this h1)
      · exact Or.inl (by simpa using h1)

theorem inv_unsaveListingForSitter {db : DB} (h : DBInv db) (lid : Nat) (sid : Int) :
    DBInv (unsaveListingForSitter db lid sid) := by
  obtain ⟨hf, hp⟩ := h
  exact ⟨hf, hp.sublist (List.filter_sublist _)⟩

theorem inv_applyOp {db : DB} (h : DBInv db) (op : Op) : DBInv (applyOp db op) := by
  cases op with
  | init now => exact inv_initDatabase h now
  | create c t loc sd ed desc now => exact inv_insertListingRow h c t loc sd ed desc now
  | update id t loc sd ed desc => exact inv_updateListing h id t loc sd ed desc
  | delete id => exact inv_deleteListing h id
  | save lid sid now => exact inv_saveListingForSitter h lid sid now
  | unsave lid sid => exact inv_unsaveListingForSitter h lid sid

theorem inv_foldl : ∀ (ops : List Op) (db : DB), DBInv db → DBInv (ops.foldl applyOp db)
  | [], _, h => h
  | op :: ops, db, h => inv_foldl ops (applyOp db op) (inv_applyOp h op)

/-- Every state reachable through the defined access functions satisfies
both data-layer invariants. -/
theorem inv_of_reachable {db : DB} (h : Reachable db) : DBInv db := by
  rcases h with ⟨ops, rfl⟩
  exact inv_foldl ops emptyDB inv_emptyDB

/-! ### Bookmark uniqueness and save idempotence -/

theorem save_of_found {db : DB} {lid : Nat} {sid : Int} (now : String)
    {s : SavedListing}
    (hfind : db.savedListings.find?
      (fun s => decide (s.listingId = lid) && decide (s.sitterRoleId = sid)) = some s) :
    saveListingForSitter db lid sid now = db := by
  unfold saveListingForSitter
  rw [hfind]

theorem save_of_not_found {db : DB} {lid : Nat} {sid : Int} {now : String}
    (hfind : db.savedListings.find?
      (fun s => decide (s.listingId = lid) && decide (s.sitterRoleId = sid)) = none) :
    saveListingForSitter db lid sid now
      = { db with
          savedListings := db.savedListings ++
            [{ id := db.nextSavedId, listingId := lid,
               sitterRoleId := sid, savedAt := now }],
          nextSavedId := db.nextSavedId + 1 } := by
  unfold saveListingForSitter
  rw [hfind]

theorem find?_append_of_none {α : Type} {p : α → Bool} {l1 l2 : List α}
    (h : l1.find? p = none) : (l1 ++ l2).find? p = l2.find? p := by
  induction l1 with
  | nil => rfl
  | cons a as ih =>
      have hpa : ¬p a = true := by
        intro hp
        rw [List.find?_cons_of_pos _ hp] at h
        cases h
      rw [List.find?_cons_of_neg _ hpa] at h
      rw [List.cons_append, List.find?_cons_of_neg _ hpa]
      exact ih h

theorem countP_pair_le_one {ss : List SavedListing}
    (hp : ss.Pairwise
      (fun a b => a.listingId ≠ b.listingId ∨ a.sitterRoleId ≠ b.sitterRoleId))
    (lid : Nat) (sid : Int) :
    ss.countP (fun s => decide (s.listingId = lid) && decide (s.sitterRoleId = sid)) ≤ 1 := by
  induction ss with
  | nil => simp
  | cons a as ih =>
      rcases List.pairwise_cons.mp hp with ⟨ha, has⟩
      rw [List.countP_cons]
      by_cases hpa : a.listingId = lid ∧ a.sitterRoleId = sid
      · have hz : as.countP
            (fun s => decide (s.listingId = lid) && decide (s.sitterRoleId = sid)) = 0 := by
          rw [List.countP_eq_zero]
          intro b hb
          simp only [Bool.and_eq_true, decide_eq_true_eq, not_and]
          intro hb1 hb2
          rcases ha b hb with hne | hne
          · exact hne (hpa.1.trans hb1.symm)
          · exact hne (hpa.2.trans hb2.symm)
        rw [hz]
        split <;> simp
      · have hfa : (decide (a.listingId = lid) && decide (a.sitterRoleId = sid)) = false := by
          simp only [Bool.and_eq_false_iff, decide_eq_false_iff_not]
          by_cases h1 : a.listingId = lid
          · exact Or.inr (fun h2 => hpa ⟨h1, h2⟩)
          · exact Or.inl h1
        rw [hfa]
        simpa using ih has

theorem saveListingForSitter_countP (db : DB) (hp : savedPairUnique db)
    (lid : Nat) (sid : Int) (now : String) :
    (saveListingForSitter db lid sid now).savedListings.countP
      (fun s => decide (s.listingId = lid) && decide (s.sitterRoleId = sid)) = 1 := by
  cases hfind : db.savedListings.find?
      (fun s => decide (s.listingId = lid) && decide (s.sitterRoleId = sid)) with
  | some s =>
      rw [save_of_found now hfind]
      have hle := countP_pair_le_one hp lid sid
      have hps := List.find?_some hfind
      have hpos : 0 < db.savedListings.countP
          (fun s => decide (s.listingId = lid) && decide (s.sitterRoleId = sid)) :=
        List.countP_pos_iff.mpr ⟨s, List.mem_of_find?_eq_some hfind, hps⟩
      omega
  | none =>
      rw [save_of_not_found hfind]
      have hz : db.savedListings.countP
          (fun s => decide (s.listingId = lid) && decide (s.sitterRoleId = sid)) = 0 := by
        rw [List.countP_eq_zero]
        intro b hb
        exact List.find?_eq_none.mp hfind b hb
      simp [List.countP_append, hz, List.countP_cons]

theorem saveListingForSitter_idem (db : DB) (lid : Nat) (sid : Int)
    (n1 n2 : String) :
    saveListingForSitter (saveListingForSitter db lid sid n1) lid sid n2
      = saveListingForSitter db lid sid n1 := by
  cases hfind : db.savedListings.find?
      (fun s => decide (s.listingId = lid) && decide (s.sitterRoleId = sid)) with
  | some s =>
      rw [save_of_found n1 hfind, save_of_found n2 hfind]
  | none =>
      rw [save_of_not_found hfind]
      apply save_of_found
      rw [find?_append_of_none hfind]
      exact List.find?_cons_of_pos _ (by simp)

/-- Claim C4: in every state reachable only through the defined access
functions there is at most one `saved_listings` row per
(listingId, sitterRoleId) pair; `saveListingForSitter` is idempotent and
after a save the pair has exactly one row. -/
theorem savedListing_pair_unique (db : DB) (h : Reachable db) (lid : Nat)
    (sid : Int) (n1 n2 : String) :
    savedPairUnique db
    ∧ saveListingForSitter (saveListingForSitter db lid sid n1) lid sid n2
        = saveListingForSitter db lid sid n1
    ∧ (saveListingForSitter db lid sid n1).savedListings.countP
        (fun s => decide (s.listingId = lid) && decide (s.sitterRoleId = sid)) = 1 := by
  have hinv := inv_of_reachable h
  exact ⟨hinv.2, saveListingForSitter_idem db lid sid n1 n2,
    saveListingForSitter_countP db hinv.2 lid sid n1⟩

/-- Witness for C4 at a concrete reachable state. -/
theorem savedListing_pair_unique_witness :
    (saveListingForSitter emptyDB 1 1 "S1").savedListings.countP
      (fun s => decide (s.listingId = 1) && decide (s.sitterRoleId = 1)) = 1 :=
  (savedListing_pair_unique emptyDB ⟨[], rfl⟩ 1 1 "S1" "S2").2.2

/-- Claim C5: `createListing` inserts exactly one new row and returns its
assigned id, and `getListingById` of that id immediately afterwards returns
the record made of the input fields plus the assigned id and the creation
time. -/
theorem createListing_getById (db : DB) (h : Reachable db) (c : Int)
    (t : SitterType) (loc sd ed desc now : String) :
    ((createListing db c t loc sd ed desc now).1).listings.length
        = db.listings.length + 1
    ∧ getListingById (createListing db c t loc sd ed desc now).1
        (createListing db c t loc sd ed desc now).2
      = some { id := (createListing db c t loc sd ed desc now).2,
               creatorRoleId := c, sitterType := t, location := loc,
               startDate := sd, endDate := ed, description := desc,
               createdAt := now } := by
  have hf := (inv_of_reachable h).1
  constructor
  · simp [createListing, insertListingRow]
  · simp only [createListing, insertListingRow, getListingById]
    rw [find?_append_of_none (List.find?_eq_none.mpr (fun l hl => by
      simp only [decide_eq_true_eq]
      exact Nat.ne_of_lt (hf l hl)))]
    exact List.find?_cons_of_pos _ (by simp)

/-- Witness for C5 at a concrete reachable state. -/
theorem createListing_getById_witness :
    getListingById (createListing emptyDB 1 SitterType.PET "L" "S" "E" "D" "T").1
        (createListing emptyDB 1 SitterType.PET "L" "S" "E" "D" "T").2
      = some { id := (createListing emptyDB 1 SitterType.PET "L" "S" "E" "D" "T").2,
               creatorRoleId := 1, sitterType := SitterType.PET, location := "L",
               startDate := "S", endDate := "E", description := "D",
               createdAt := "T" } :=
  (createListing_getById emptyDB ⟨[], rfl⟩ 1 SitterType.PET "L" "S" "E" "D" "T").2

/-! ### The seeded store -/

/-- Claim C10: every one of the five seeded sample listings has
`creatorRoleId` 1 (two with sitterType PET, two HOUSE, one BOTH), so on a
freshly seeded store `getListingsByCreator 1` already returns all five seed
rows. -/
theorem seeded_getListingsByCreator (now : String) :
    (∀ l ∈ (initDatabase emptyDB now).listings, l.creatorRoleId = 1)
    ∧ (initDatabase emptyDB now).listings.length = 5
    ∧ (initDatabase emptyDB now).listings.countP
        (fun l => decide (l.sitterType = SitterType.PET)) = 2
    ∧ (initDatabase emptyDB now).listings.countP
        (fun l => decide (l.sitterType = SitterType.HOUSE)) = 2
    ∧ (initDatabase emptyDB now).listings.countP
        (fun l => decide (l.sitterType = SitterType.BOTH)) = 1
    ∧ (getListingsByCreator (initDatabase emptyDB now) 1).Perm
        (initDatabase emptyDB now).listings
    ∧ (getListingsByCreator (initDatabase emptyDB now) 1).length = 5 := by
  have hinit : initDatabase emptyDB now = seedSampleData emptyDB now := by
    simp [initDatabase, emptyDB]
  have hcreator : ∀ l ∈ (initDatabase emptyDB now).listings, l.creatorRoleId = 1 := by
    rw [hinit]
    intro l hl
    simp only [seedSampleData, insertListingRow, emptyDB, List.nil_append,
      List.append_assoc, List.singleton_append, List.cons_append,
      List.mem_cons, List.not_mem_nil, or_false] at hl
    rcases hl with rfl | rfl | rfl | rfl | rfl <;> rfl
  have hlen : (initDatabase emptyDB now).listings.length = 5 := by
    rw [hinit, seedSampleData_listings_length]
    simp [emptyDB]
  have hfilter : (initDatabase emptyDB now).listings.filter
      (fun l => decide (l.creatorRoleId = 1)) = (initDatabase emptyDB now).listings :=
    List.filter_eq_self.mpr (fun l hl => by simp [hcreator l hl])
  have hperm : (getListingsByCreator (initDatabase emptyDB now) 1).Perm
      (initDatabase emptyDB now).listings := by
    unfold getListingsByCreator
    rw [hfilter]
    exact perm_sortByCreatedAtDesc _
  refine ⟨hcreator, hlen, ?_, ?_, ?_, hperm, hperm.length_eq.trans hlen⟩
  all_goals
    rw [hinit]
    simp [seedSampleData, insertListingRow, emptyDB, List.countP_cons,
      List.countP_append]
